import Mathlib

/-!
Verification of `c3sdb/build_utils/clean_src.py`.

Shallow embedding conventions:
* Python floats are modelled as exact rationals (`ℚ`); the square root taken
  by `np.std` lives in `ℝ`, so standard deviation and RSD are real-valued.
* A Python function that can fall off the end (returning `None`) or raise is
  modelled with `Option`; `none` is the no-value/exception outcome.
* `sqlite3` rows are modelled by the `Entry` structure, one field per column
  of the 12-column `master` projection.
-/

namespace C3SDB

/-- One row of the `master` table, as read by `clean_database`
    (columns g_id, name, adduct, mass, z, mz, ccs, smi, chem_class_label,
    src_tag, ccs_type, ccs_method). -/
structure Entry where
  g_id : ℤ
  name : String
  adduct : String
  mass : ℚ
  z : ℤ
  mz : ℚ
  ccs : ℚ
  smi : String
  chem_class_label : Option String
  src_tag : String
  ccs_type : String
  ccs_method : String
deriving DecidableEq

/-- `np.mean(values)`: arithmetic mean (sum divided by length). -/
def mean (values : List ℚ) : ℚ := values.sum / values.length

/-- The population variance underlying `np.std(values)`:
    mean of the squared deviations from the mean. -/
def variance (values : List ℚ) : ℚ :=
  ((values.map (fun v => (v - mean values) ^ 2)).sum) / values.length

/-- `np.std(values)`: population standard deviation, the square root of the
    population variance. -/
noncomputable def std (values : List ℚ) : ℝ := Real.sqrt (variance values)

/-- `calculate_rsd(values)` from clean_src.py:
    `np.std(values) / np.mean(values) * 100`. -/
noncomputable def calculate_rsd (values : List ℚ) : ℝ :=
  std values / (mean values : ℝ) * 100

open Classical in
/-- The list comprehension inside `remove_outliers_and_average`:
    `[v for v in values if abs(v - mean_val) <= std_dev]` where
    `mean_val = np.mean(values)` and `std_dev = np.std(values)`. -/
noncomputable def one_std_filter (values : List ℚ) : List ℚ :=
  values.filter (fun v => decide (|(v : ℝ) - (mean values : ℝ)| ≤ std values))

/-- Computable twin of `one_std_filter`: the filter condition written with
    squared deviations instead of the real square root (used to evaluate the
    filter on concrete inputs; see `one_std_filter_eq`). -/
def one_std_filter_sq (values : List ℚ) : List ℚ :=
  values.filter (fun v => decide ((v - mean values) ^ 2 ≤ variance values))

open Classical in
/-- `remove_outliers_and_average(values)` from clean_src.py.

    Every path through the body of the Python `while len(values) > 2` loop
    either `break`s or `return`s (after one removal `len(values)` already
    differs from `len(original_values)`), so the loop body executes at most
    once; the embedding unrolls it accordingly.  When execution falls past
    the loop (the guard fails at entry, or the filter removed nothing and the
    body hit `break`) the Python function returns `None`, modelled as `none`.
    `some (.inl x)` is a single float return, `some (.inr l)` a list return.
    (`open Classical` supplies decidability of the real-valued tests.) -/
noncomputable def remove_outliers_and_average (values : List ℚ) :
    Option (ℚ ⊕ List ℚ) :=
  let original_values := values
  if 2 < values.length then
    let filtered_values := one_std_filter values
    if filtered_values.length = values.length then
      none
    else
      let values := filtered_values
      if calculate_rsd values < 1 then some (.inl (mean values))
      else if values.length ≠ original_values.length then some (.inl (mean values))
      else some (.inr original_values)
  else none

/-- Python's built-in `round` on an exact rational scaled to an integer:
    round half to even (banker's rounding). -/
def round_half_even (x : ℚ) : ℤ :=
  let f : ℤ := ⌊x⌋
  let r : ℚ := x - f
  if r < 1 / 2 then f
  else if 1 / 2 < r then f + 1
  else if f % 2 = 0 then f else f + 1

/-- Python's `round(x, ndigits)` on an exact rational. -/
def pyRound (x : ℚ) (ndigits : ℕ) : ℚ :=
  (round_half_even (x * 10 ^ ndigits) : ℚ) / 10 ^ ndigits

open Classical in
/-- `process_entries(entries)` from clean_src.py.  Returns the list of
    processed CCS values, or `none` when `remove_outliers_and_average`
    returned `None` and `round(None, 4)` raises `TypeError`. -/
noncomputable def process_entries (entries : List Entry) : Option (List ℚ) :=
  let ccs_values := entries.map (·.ccs)
  let rsd := calculate_rsd ccs_values
  let dt_entries := entries.filter (fun e => decide (e.ccs_type = "DT"))
  if ccs_values.length = 2 then
    if rsd < 1 then
      some (List.replicate entries.length (pyRound (mean ccs_values) 4))
    else if dt_entries.length = 1 then
      -- `return dt_ccs * len(entries)`: Python list repetition
      some (List.flatten (List.replicate entries.length (dt_entries.map (·.ccs))))
    else if dt_entries.length = 2 then
      some ccs_values
    else
      some ccs_values
  else
    if rsd < 1 then
      some (List.replicate entries.length (pyRound (mean ccs_values) 4))
    else
      match remove_outliers_and_average ccs_values with
      | some (.inr l) => some l
      | some (.inl v) => some (List.replicate entries.length (pyRound v 4))
      | none => none

/-- Python's `str.lower()` (ASCII case folding, as used on analyte names). -/
def pyLower (s : String) : String := ⟨s.data.map Char.toLower⟩

/-- The grouping key built in `clean_database`:
    `key = (entry[1].lower(), entry[2], round(entry[5], 0))`,
    i.e. (lower-cased name, adduct, mz rounded to the nearest integer). -/
def group_key (e : Entry) : String × String × ℚ :=
  (pyLower e.name, e.adduct, pyRound e.mz 0)

/-- The contents of `grouped[k]` after the grouping loop of `clean_database`:
    the source entries with key `k`, in source read order.  (The Python code
    builds an insertion-ordered dict by appending; per key that dict holds
    exactly this list.) -/
def group_of (data : List Entry) (k : String × String × ℚ) : List Entry :=
  data.filter (fun e => decide (group_key e = k))

/-- The row written by `clean_cursor.execute("INSERT INTO master VALUES ...")`:
    all fields of the entry, with the processed `ccs_value` in the ccs slot. -/
def emit (e : Entry) (v : ℚ) : Entry := { e with ccs := v }

/-- The per-group insertion loop of `clean_database`:
    `for entry, ccs_value in zip(entries, processed_ccs): if ccs_value in
    unique_ccs: INSERT ...; unique_ccs.remove(ccs_value)`.
    The Python `set` is modelled as a duplicate-free list; `List.erase`
    is the `set.remove`. -/
def insert_rows (pairs : List (Entry × ℚ)) (unique_ccs : List ℚ) : List Entry :=
  match pairs with
  | [] => []
  | (e, v) :: rest =>
    if v ∈ unique_ccs then emit e v :: insert_rows rest (unique_ccs.erase v)
    else insert_rows rest unique_ccs

/-- The rows inserted for one duplicate group by `clean_database`, given the
    group's entries and the processed CCS values `processed_ccs`:
    `unique_ccs = set(processed_ccs)` (a duplicate-free collection) and then
    the zip loop above. -/
def group_inserted_rows (entries : List Entry) (processed : List ℚ) : List Entry :=
  insert_rows (entries.zip processed) processed.dedup

/-- Modelled from the claim's words (first-occurrence semantics, to be
    compared with `group_inserted_rows`): keep, for each distinct second
    component, only the earliest pair carrying it. -/
def keep_first_by_value (pairs : List (Entry × ℚ)) : List (Entry × ℚ) :=
  match pairs with
  | [] => []
  | (e, v) :: rest =>
    (e, v) :: keep_first_by_value (rest.filter (fun p => decide (p.2 ≠ v)))
termination_by pairs.length
decreasing_by
  simp only [List.length_cons]
  exact Nat.lt_succ_of_le (List.length_filter_le _ _)

/-- Abstract file system for `create_clean_db`: schema-script text files and
    SQLite database files, each addressed by path.  A database file's content
    is modelled as the list of schema-script texts already executed against
    it (`some []` is a freshly created empty database, `none` no file). -/
structure FS where
  script_files : String → Option String
  db_files : String → Option (List String)

/-- The three schema script paths of `create_clean_db`
    (`os.path.join(INCLUDE_PATH, ...)`); the include path is the process-wide
    `INCLUDE_PATH` configuration, passed explicitly here. -/
def sql_script_paths (include_path : String) : List String :=
  [include_path ++ "/C3SDB_schema.sqlite3",
   include_path ++ "/mqn_schema.sqlite3",
   include_path ++ "/pred_CCS_schema.sqlite3"]

/-- The `for sql_script in sql_scripts:` loop of `create_clean_db`:
    `open(sql_script)` raises `FileNotFoundError` when the path is absent
    (state at that moment is returned alongside the error); otherwise
    `cur.executescript(...)` appends the script text to the database at
    `path`. -/
def run_scripts (fs : FS) (path : String) (scripts : List String) :
    FS × Option String :=
  match scripts with
  | [] => (fs, none)
  | s :: rest =>
    match fs.script_files s with
    | none => (fs, some "FileNotFoundError")
    | some text =>
      run_scripts
        { fs with
          db_files := fun q =>
            if q = path then some (((fs.db_files path).getD []) ++ [text])
            else fs.db_files q }
        path rest

/-- `create_clean_db(clean_db_path)` from clean_src.py, as a file-system
    transition: `if os.path.exists(clean_db_path): os.remove(clean_db_path)`,
    then `sqlite3.connect(clean_db_path)` (which creates an empty database
    file at the path), then the schema-script loop.  Returns the final state
    and the error, if any. -/
def create_clean_db (fs : FS) (clean_db_path include_path : String) :
    FS × Option String :=
  let fs₁ :=
    if (fs.db_files clean_db_path).isSome then
      { fs with
        db_files := fun q => if q = clean_db_path then none else fs.db_files q }
    else fs
  let fs₂ :=
    { fs₁ with
      db_files := fun q =>
        if q = clean_db_path then some [] else fs₁.db_files q }
  run_scripts fs₂ clean_db_path (sql_script_paths include_path)

/-! ### Helper lemmas -/

theorem variance_nonneg (values : List ℚ) : 0 ≤ variance values := by
  unfold variance
  apply div_nonneg
  · apply List.sum_nonneg
    intro x hx
    simp only [List.mem_map] at hx
    obtain ⟨v, _, rfl⟩ := hx
    positivity
  · positivity

/-- The one-standard-deviation filter condition `|v - mean| ≤ std` is
    equivalent to the squared, rational-arithmetic condition
    `(v - mean)² ≤ variance`, so the real-valued filter coincides with its
    computable twin. -/
theorem one_std_filter_eq (values : List ℚ) :
    one_std_filter values = one_std_filter_sq values := by
  unfold one_std_filter one_std_filter_sq
  refine List.filter_congr fun v _ => ?_
  rw [decide_eq_decide, std,
    Real.le_sqrt (abs_nonneg _) (by exact_mod_cast variance_nonneg values), sq_abs]
  constructor
  · intro h; exact_mod_cast h
  · intro h; exact_mod_cast h

/-- Evaluation helper for `calculate_rsd` when the variance is a perfect
    square of a rational. -/
theorem calculate_rsd_eval (values : List ℚ) (q m : ℚ)
    (hvar : variance values = q * q) (hq : 0 ≤ q) (hm : mean values = m) :
    calculate_rsd values = (q : ℝ) / (m : ℝ) * 100 := by
  unfold calculate_rsd std
  rw [hvar, hm]
  have : ((q * q : ℚ) : ℝ) = (q : ℝ) * (q : ℝ) := by push_cast; ring
  rw [this, Real.sqrt_mul_self (by exact_mod_cast hq)]

/-! ### Claim C1 -/

/-- C1 (code-bug evidence): in both no-consensus cases the code returns
    `None`, not the original sequence.  On the two-element input `[1, 2]`
    the `while` guard fails at entry; on `[100, 110, 100, 110]` the
    one-standard-deviation filter removes nothing and the body `break`s;
    either way execution falls off the end of `remove_outliers_and_average`
    and Python returns `None`, contradicting the function's own docstring
    ("or the original values otherwise"). -/
theorem c1_no_consensus_returns_none :
    remove_outliers_and_average [1, 2] = none ∧
    remove_outliers_and_average [100, 110, 100, 110] = none := by
  constructor
  · unfold remove_outliers_and_average
    norm_num
  · unfold remove_outliers_and_average
    rw [one_std_filter_eq]
    norm_num [one_std_filter_sq, variance, mean, List.filter]

/-! ### Claim C2 -/

/-- C2: whenever the input has more than two values and the first
    one-standard-deviation filter removes at least one element,
    `remove_outliers_and_average` returns the arithmetic mean of the filtered
    set as a single float — through the dispersion-below-1% branch or, when
    dispersion is still at or above 1%, through the size-differs convergence
    shortcut. -/
theorem c2_first_removal_returns_filtered_mean (values : List ℚ)
    (h2 : 2 < values.length)
    (hrem : (one_std_filter values).length ≠ values.length) :
    remove_outliers_and_average values =
      some (.inl (mean (one_std_filter values))) := by
  unfold remove_outliers_and_average
  rw [if_pos h2, if_neg hrem]
  by_cases hrsd : calculate_rsd (one_std_filter values) < 1
  · rw [if_pos hrsd]
  · rw [if_neg hrsd, if_pos hrem]

/-- Witness for C2 at the concrete input `[100, 100, 100, 100, 200]`:
    the filter drops the gross outlier 200 and the mean 100 of the
    remaining values is returned. -/
theorem c2_witness :
    (2 < ([100, 100, 100, 100, 200] : List ℚ).length ∧
      (one_std_filter [100, 100, 100, 100, 200]).length ≠
        ([100, 100, 100, 100, 200] : List ℚ).length) ∧
    remove_outliers_and_average [100, 100, 100, 100, 200] =
      some (.inl (mean (one_std_filter [100, 100, 100, 100, 200]))) := by
  have h2 : 2 < ([100, 100, 100, 100, 200] : List ℚ).length := by norm_num
  have hrem : (one_std_filter ([100, 100, 100, 100, 200] : List ℚ)).length ≠
      ([100, 100, 100, 100, 200] : List ℚ).length := by
    rw [one_std_filter_eq]
    norm_num [one_std_filter_sq, variance, mean, List.filter]
  exact ⟨⟨h2, hrem⟩, c2_first_removal_returns_filtered_mean _ h2 hrem⟩

/-! ### Claim C3 -/

/-- C3: for a group of exactly two entries whose CCS relative dispersion is
    at least 1% and of which exactly one has `ccs_type = "DT"`,
    `process_entries` outputs the DT entry's CCS value in both positions. -/
theorem c3_two_entries_one_dt (e₁ e₂ : Entry)
    (hrsd : ¬ calculate_rsd [e₁.ccs, e₂.ccs] < 1) :
    (e₁.ccs_type = "DT" → e₂.ccs_type ≠ "DT" →
      process_entries [e₁, e₂] = some [e₁.ccs, e₁.ccs]) ∧
    (e₁.ccs_type ≠ "DT" → e₂.ccs_type = "DT" →
      process_entries [e₁, e₂] = some [e₂.ccs, e₂.ccs]) := by
  have hmap : List.map (fun x => x.ccs) [e₁, e₂] = [e₁.ccs, e₂.ccs] := rfl
  constructor
  · intro h₁ h₂
    have hdt : List.filter (fun e => decide (e.ccs_type = "DT")) [e₁, e₂] = [e₁] := by
      simp [List.filter_cons, h₁, h₂]
    simp only [process_entries, hmap, hdt]
    rw [if_pos (show ([e₁.ccs, e₂.ccs] : List ℚ).length = 2 by simp),
      if_neg hrsd, if_pos (show ([e₁] : List Entry).length = 1 by simp)]
    simp
  · intro h₁ h₂
    have hdt : List.filter (fun e => decide (e.ccs_type = "DT")) [e₁, e₂] = [e₂] := by
      simp [List.filter_cons, h₁, h₂]
    simp only [process_entries, hmap, hdt]
    rw [if_pos (show ([e₁.ccs, e₂.ccs] : List ℚ).length = 2 by simp),
      if_neg hrsd, if_pos (show ([e₂] : List Entry).length = 1 by simp)]
    simp

/-- A drift-tube entry with CCS 150.0 (used for C3's concrete instance). -/
def entryDT150 : Entry :=
  ⟨1, "analyteA", "[M+H]+", 194, 1, 195, 150, "smiA", none, "srcA", "DT", "dt"⟩

/-- A non-drift-tube entry with CCS 160.0 (used for C3's concrete instance). -/
def entryTW160 : Entry :=
  ⟨2, "analyteA", "[M+H]+", 194, 1, 195, 160, "smiB", none, "srcB", "TW", "tw"⟩

/-- Witness for C3: one DT entry with CCS 150.0 and one non-DT entry with
    CCS 160.0 (relative dispersion about 3.2%) give output
    `[150.0, 150.0]`. -/
theorem c3_witness :
    ¬ calculate_rsd [entryDT150.ccs, entryTW160.ccs] < 1 ∧
    process_entries [entryDT150, entryTW160] = some [150, 150] := by
  have hrsd : ¬ calculate_rsd [entryDT150.ccs, entryTW160.ccs] < 1 := by
    show ¬ calculate_rsd [150, 160] < 1
    rw [calculate_rsd_eval [150, 160] 5 155 (by norm_num [variance, mean])
      (by norm_num) (by norm_num [mean])]
    norm_num
  refine ⟨hrsd, ?_⟩
  have h := (c3_two_entries_one_dt entryDT150 entryTW160 hrsd).1
    (by rfl) (by simp [entryTW160])
  simpa [entryDT150] using h

/-! ### Claim C5 -/

/-- A non-DT entry with CCS 100.0 (used for C5's concrete instance). -/
def entryC100 : Entry :=
  ⟨3, "analyteB", "[M+H]+", 99, 1, 100, 100.0, "smiC", none, "srcC", "TW", "tw"⟩

/-- A non-DT entry with CCS 100.05 (used for C5's concrete instance). -/
def entryC10005 : Entry :=
  ⟨4, "analyteB", "[M+H]+", 99, 1, 100, 100.05, "smiD", none, "srcD", "TW", "tw"⟩

/-- Counterexample to C5 as stated: on the group with CCS values
    `[100.0, 100.05]` the code does not return `[100.03, 100.03]` — the mean
    100.025 already has only three decimal places, so `round(·, 4)` leaves it
    at 100.025. -/
theorem c5_counterexample :
    process_entries [entryC100, entryC10005] ≠
      some [(100.03 : ℚ), (100.03 : ℚ)] := by
  have hrsd : calculate_rsd [(100.0 : ℚ), 100.05] < 1 := by
    rw [calculate_rsd_eval [(100.0 : ℚ), 100.05] (1 / 40) 100.025
      (by norm_num [variance, mean]) (by norm_num) (by norm_num [mean])]
    norm_num
  unfold process_entries
  rw [show (([entryC100, entryC10005].map (·.ccs))) = [(100.0 : ℚ), 100.05] from rfl]
  dsimp only
  rw [if_pos (show ([(100.0 : ℚ), 100.05] : List ℚ).length = 2 by simp), if_pos hrsd]
  norm_num [pyRound, round_half_even, mean, List.replicate]

/-- C5 (amended): for the group with CCS values `[100.0, 100.05]`
    (dispersion below 1%), `process_entries` returns the rounded mean
    repeated for both entries, namely `[100.025, 100.025]`. -/
theorem c5_amended_rounded_mean :
    process_entries [entryC100, entryC10005] =
      some [(100.025 : ℚ), (100.025 : ℚ)] := by
  have hrsd : calculate_rsd [(100.0 : ℚ), 100.05] < 1 := by
    rw [calculate_rsd_eval [(100.0 : ℚ), 100.05] (1 / 40) 100.025
      (by norm_num [variance, mean]) (by norm_num) (by norm_num [mean])]
    norm_num
  unfold process_entries
  rw [show (([entryC100, entryC10005].map (·.ccs))) = [(100.0 : ℚ), 100.05] from rfl]
  dsimp only
  rw [if_pos (show ([(100.0 : ℚ), 100.05] : List ℚ).length = 2 by simp), if_pos hrsd]
  norm_num [pyRound, round_half_even, mean, List.replicate]

/-! ### Claim C7 -/

theorem mean_map_mul (c : ℚ) (values : List ℚ) :
    mean (values.map (fun v => c * v)) = c * mean values := by
  unfold mean
  rw [List.length_map,
    show (values.map fun v => c * v) = values.map fun v => c * id v from rfl,
    List.sum_map_mul_left, List.map_id]
  ring

theorem variance_map_mul (c : ℚ) (values : List ℚ) :
    variance (values.map (fun v => c * v)) = c ^ 2 * variance values := by
  unfold variance
  rw [List.length_map, mean_map_mul, List.map_map,
    show ((fun v => (v - c * mean values) ^ 2) ∘ fun v => c * v)
      = fun v => c ^ 2 * (v - mean values) ^ 2 from funext fun v => by
        simp only [Function.comp_apply]; ring,
    List.sum_map_mul_left]
  ring

theorem std_map_mul (c : ℚ) (hc : 0 ≤ c) (values : List ℚ) :
    std (values.map (fun v => c * v)) = (c : ℝ) * std values := by
  unfold std
  rw [variance_map_mul,
    show ((c ^ 2 * variance values : ℚ) : ℝ)
      = (c : ℝ) ^ 2 * ((variance values : ℚ) : ℝ) by push_cast; ring,
    Real.sqrt_mul (by positivity), Real.sqrt_sq (by exact_mod_cast hc)]

theorem mean_of_all_eq (values : List ℚ) (a : ℚ) (hne : values ≠ [])
    (h : ∀ x ∈ values, x = a) : mean values = a := by
  have hlen : (values.length : ℚ) ≠ 0 := by
    rw [Nat.cast_ne_zero]
    exact Nat.pos_iff_ne_zero.mp (List.length_pos.mpr hne)
  unfold mean
  rw [List.sum_eq_card_nsmul values a h, nsmul_eq_mul]
  field_simp

theorem variance_eq_zero_iff (values : List ℚ) (hne : values ≠ []) :
    variance values = 0 ↔ ∀ x ∈ values, x = mean values := by
  have hlen : (values.length : ℚ) ≠ 0 := by
    rw [Nat.cast_ne_zero]
    exact Nat.pos_iff_ne_zero.mp (List.length_pos.mpr hne)
  unfold variance
  rw [div_eq_zero_iff]
  constructor
  · rintro (hsum | hlen0)
    · intro x hx
      have hx0 : (x - mean values) ^ 2 = 0 := by
        refine List.all_zero_of_le_zero_le_of_sum_eq_zero ?_ hsum ?_
        · intro y hy
          simp only [List.mem_map] at hy
          obtain ⟨v, _, rfl⟩ := hy
          positivity
        · exact List.mem_map_of_mem _ hx
      exact sub_eq_zero.mp ((pow_eq_zero_iff two_ne_zero).mp hx0)
    · exact absurd hlen0 hlen
  · intro h
    left
    apply List.sum_eq_zero
    intro y hy
    simp only [List.mem_map] at hy
    obtain ⟨v, hv, rfl⟩ := hy
    rw [h v hv]
    ring

/-- C7: `calculate_rsd` is invariant under scaling all inputs by one positive
    factor, and (for a non-empty input with nonzero mean) it is zero exactly
    when all values in the sequence are equal. -/
theorem c7_rsd_scale_invariance_and_zero_iff (values : List ℚ) (c : ℚ)
    (hne : values ≠ []) (hm : mean values ≠ 0) (hc : 0 < c) :
    calculate_rsd (values.map (fun v => c * v)) = calculate_rsd values ∧
    (calculate_rsd values = 0 ↔ ∀ x ∈ values, ∀ y ∈ values, x = y) := by
  have hmr : ((mean values : ℚ) : ℝ) ≠ 0 := by exact_mod_cast hm
  constructor
  · unfold calculate_rsd
    rw [std_map_mul c hc.le, mean_map_mul]
    push_cast
    rw [mul_div_mul_left _ _ (show ((c : ℚ) : ℝ) ≠ 0 by exact_mod_cast hc.ne')]
  · constructor
    · intro h
      have hdiv : std values / ((mean values : ℚ) : ℝ) = 0 := by
        have h100 : (100 : ℝ) ≠ 0 := by norm_num
        rcases mul_eq_zero.mp h with h' | h'
        · exact h'
        · exact absurd h' h100
      have hstd : std values = 0 := by
        rcases div_eq_zero_iff.mp hdiv with h' | h'
        · exact h'
        · exact absurd h' hmr
      have hvar : variance values = 0 := by
        have hle : ((variance values : ℚ) : ℝ) ≤ 0 := Real.sqrt_eq_zero'.mp hstd
        have hge := variance_nonneg values
        exact le_antisymm (by exact_mod_cast hle) hge
      intro x hx y hy
      have hall := (variance_eq_zero_iff values hne).mp hvar
      rw [hall x hx, hall y hy]
    · intro h
      obtain ⟨a, ha⟩ := List.exists_mem_of_ne_nil values hne
      have hall : ∀ x ∈ values, x = a := fun x hx => h x hx a ha
      have hvar : variance values = 0 := by
        rw [variance_eq_zero_iff values hne]
        intro x hx
        rw [hall x hx, mean_of_all_eq values a hne hall]
      unfold calculate_rsd std
      rw [hvar]
      simp

/-- Witness for C7 at `values = [2, 4]`, `c = 3`: RSD is unchanged by the
    scaling, and since the two values differ the RSD is nonzero. -/
theorem c7_witness :
    (([2, 4] : List ℚ) ≠ [] ∧ mean [2, 4] ≠ 0 ∧ (0 : ℚ) < 3) ∧
    calculate_rsd (([2, 4] : List ℚ).map (fun v => 3 * v)) = calculate_rsd [2, 4] ∧
    (calculate_rsd [2, 4] = 0 ↔ ∀ x ∈ ([2, 4] : List ℚ), ∀ y ∈ ([2, 4] : List ℚ), x = y) := by
  have hne : ([2, 4] : List ℚ) ≠ [] := by simp
  have hm : mean [2, 4] ≠ 0 := by norm_num [mean]
  have hc : (0 : ℚ) < 3 := by norm_num
  exact ⟨⟨hne, hm, hc⟩, c7_rsd_scale_invariance_and_zero_iff [2, 4] 3 hne hm hc⟩

/-! ### Claim C9 -/

/-- C9: on a group of more than two entries whose CCS dispersion is at least
    1% and on which the one-standard-deviation filter removes nothing,
    `remove_outliers_and_average` returns `None`, and `process_entries`
    therefore raises `TypeError` at `round(None, 4)` (modelled as `none`)
    instead of returning the original CCS values. -/
theorem c9_no_removal_returns_none_and_process_fails (entries : List Entry)
    (h2 : 2 < entries.length)
    (hnof : (one_std_filter (entries.map (·.ccs))).length =
      (entries.map (·.ccs)).length)
    (hrsd : ¬ calculate_rsd (entries.map (·.ccs)) < 1) :
    remove_outliers_and_average (entries.map (·.ccs)) = none ∧
    process_entries entries = none := by
  have hlen : (entries.map (·.ccs)).length = entries.length := List.length_map _ _
  have h1 : remove_outliers_and_average (entries.map (·.ccs)) = none := by
    unfold remove_outliers_and_average
    dsimp only
    rw [if_pos (show 2 < (entries.map (·.ccs)).length by rw [hlen]; exact h2),
      if_pos hnof]
  refine ⟨h1, ?_⟩
  unfold process_entries
  dsimp only
  rw [if_neg (show ¬ (entries.map (·.ccs)).length = 2 by rw [hlen]; omega),
    if_neg hrsd, h1]

/-- Entry with CCS 100.0 in a four-entry no-consensus group (C9 witness). -/
def entryN1 : Entry :=
  ⟨5, "analyteC", "[M+H]+", 0, 1, 0, 100, "", none, "s1", "TW", "m"⟩

/-- Entry with CCS 110.0 in a four-entry no-consensus group (C9 witness). -/
def entryN2 : Entry :=
  ⟨6, "analyteC", "[M+H]+", 0, 1, 0, 110, "", none, "s2", "TW", "m"⟩

/-- Entry with CCS 100.0 in a four-entry no-consensus group (C9 witness). -/
def entryN3 : Entry :=
  ⟨7, "analyteC", "[M+H]+", 0, 1, 0, 100, "", none, "s3", "TW", "m"⟩

/-- Entry with CCS 110.0 in a four-entry no-consensus group (C9 witness). -/
def entryN4 : Entry :=
  ⟨8, "analyteC", "[M+H]+", 0, 1, 0, 110, "", none, "s4", "TW", "m"⟩

/-- Witness for C9 on the group with CCS values `[100, 110, 100, 110]`
    (dispersion about 4.8%, filter removes nothing): `process_entries`
    propagates the `None`. -/
theorem c9_witness :
    (2 < ([entryN1, entryN2, entryN3, entryN4] : List Entry).length ∧
     (one_std_filter (([entryN1, entryN2, entryN3, entryN4] : List Entry).map (·.ccs))).length =
       (([entryN1, entryN2, entryN3, entryN4] : List Entry).map (·.ccs)).length ∧
     ¬ calculate_rsd (([entryN1, entryN2, entryN3, entryN4] : List Entry).map (·.ccs)) < 1) ∧
    process_entries [entryN1, entryN2, entryN3, entryN4] = none := by
  have hmap : (([entryN1, entryN2, entryN3, entryN4] : List Entry).map (·.ccs))
      = [100, 110, 100, 110] := rfl
  have h2 : 2 < ([entryN1, entryN2, entryN3, entryN4] : List Entry).length := by norm_num
  have hnof : (one_std_filter (([entryN1, entryN2, entryN3, entryN4] : List Entry).map (·.ccs))).length =
      (([entryN1, entryN2, entryN3, entryN4] : List Entry).map (·.ccs)).length := by
    rw [hmap, one_std_filter_eq]
    norm_num [one_std_filter_sq, variance, mean, List.filter]
  have hrsd : ¬ calculate_rsd (([entryN1, entryN2, entryN3, entryN4] : List Entry).map (·.ccs)) < 1 := by
    rw [hmap, calculate_rsd_eval [100, 110, 100, 110] 5 105
      (by norm_num [variance, mean]) (by norm_num) (by norm_num [mean])]
    norm_num
  exact ⟨⟨h2, hnof, hrsd⟩,
    (c9_no_removal_returns_none_and_process_fails _ h2 hnof hrsd).2⟩

/-! ### Claims C4 and C10: the per-group insertion loop -/

theorem insert_rows_ccs_mem (pairs : List (Entry × ℚ)) (u : List ℚ) :
    ∀ r ∈ insert_rows pairs u, r.ccs ∈ u := by
  induction pairs generalizing u with
  | nil => simp [insert_rows]
  | cons p rest ih =>
    obtain ⟨e, v⟩ := p
    intro r hr
    by_cases hv : v ∈ u
    · rw [show insert_rows ((e, v) :: rest) u
          = emit e v :: insert_rows rest (u.erase v) by simp [insert_rows, hv]] at hr
      rcases List.mem_cons.mp hr with h | h
      · rw [h]; exact hv
      · exact List.mem_of_mem_erase (ih (u.erase v) r h)
    · rw [show insert_rows ((e, v) :: rest) u = insert_rows rest u by
          simp [insert_rows, hv]] at hr
      exact ih u r hr

theorem insert_rows_ccs_nodup (pairs : List (Entry × ℚ)) (u : List ℚ)
    (hu : u.Nodup) : ((insert_rows pairs u).map (·.ccs)).Nodup := by
  induction pairs generalizing u with
  | nil => simp [insert_rows]
  | cons p rest ih =>
    obtain ⟨e, v⟩ := p
    by_cases hv : v ∈ u
    · rw [show insert_rows ((e, v) :: rest) u
          = emit e v :: insert_rows rest (u.erase v) by simp [insert_rows, hv]]
      rw [List.map_cons, List.nodup_cons]
      refine ⟨?_, ih (u.erase v) (hu.erase v)⟩
      intro hmem
      simp only [List.mem_map] at hmem
      obtain ⟨r, hr, hrc⟩ := hmem
      have : (emit e v).ccs ∈ u.erase v := hrc ▸ insert_rows_ccs_mem _ _ r hr
      have hv' : v ∈ u.erase v := this
      exact ((List.Nodup.mem_erase_iff hu).mp hv').1 rfl
    · rw [show insert_rows ((e, v) :: rest) u = insert_rows rest u by
          simp [insert_rows, hv]]
      exact ih u hu

/-- C4: for any duplicate group, the rows the pipeline inserts carry pairwise
    distinct output CCS values — at most one record per distinct value (each
    value occurs at most once among the inserted rows). -/
theorem c4_inserted_ccs_values_distinct (entries : List Entry)
    (processed : List ℚ) :
    ((group_inserted_rows entries processed).map (·.ccs)).Nodup ∧
    ∀ v : ℚ, ((group_inserted_rows entries processed).map (·.ccs)).count v ≤ 1 := by
  have hnd := insert_rows_ccs_nodup (entries.zip processed) processed.dedup
    processed.nodup_dedup
  exact ⟨hnd, fun v => List.nodup_iff_count_le_one.mp hnd v⟩

theorem insert_rows_filter_ne (pairs : List (Entry × ℚ)) (u : List ℚ) (v : ℚ)
    (hv : v ∉ u) :
    insert_rows pairs u
      = insert_rows (pairs.filter (fun p => decide (p.2 ≠ v))) u := by
  induction pairs generalizing u with
  | nil => simp [insert_rows]
  | cons p rest ih =>
    obtain ⟨e, w⟩ := p
    by_cases hw : w = v
    · subst hw
      rw [show ((e, w) :: rest).filter (fun p => decide (p.2 ≠ w))
            = rest.filter (fun p => decide (p.2 ≠ w)) by simp [List.filter_cons]]
      rw [show insert_rows ((e, w) :: rest) u = insert_rows rest u by
          simp [insert_rows, hv]]
      exact ih u hv
    · rw [show ((e, w) :: rest).filter (fun p => decide (p.2 ≠ v))
            = (e, w) :: rest.filter (fun p => decide (p.2 ≠ v)) by
          simp [List.filter_cons, hw]]
      by_cases hwu : w ∈ u
      · rw [show insert_rows ((e, w) :: rest) u
            = emit e w :: insert_rows rest (u.erase w) by simp [insert_rows, hwu]]
        rw [show insert_rows ((e, w) :: rest.filter (fun p => decide (p.2 ≠ v))) u
            = emit e w :: insert_rows (rest.filter (fun p => decide (p.2 ≠ v)))
                (u.erase w) by simp [insert_rows, hwu]]
        exact congrArg _ (ih (u.erase w) fun hmem => hv (List.mem_of_mem_erase hmem))
      · rw [show insert_rows ((e, w) :: rest) u = insert_rows rest u by
            simp [insert_rows, hwu]]
        rw [show insert_rows ((e, w) :: rest.filter (fun p => decide (p.2 ≠ v))) u
            = insert_rows (rest.filter (fun p => decide (p.2 ≠ v))) u by
            simp [insert_rows, hwu]]
        exact ih u hv

theorem insert_rows_eq_keep_first_aux (n : ℕ) :
    ∀ (pairs : List (Entry × ℚ)) (u : List ℚ), pairs.length ≤ n → u.Nodup →
      (∀ p ∈ pairs, p.2 ∈ u) →
      insert_rows pairs u
        = (keep_first_by_value pairs).map (fun p => emit p.1 p.2) := by
  induction n with
  | zero =>
    intro pairs u hlen _ _
    rw [List.length_eq_zero.mp (Nat.le_zero.mp hlen)]
    simp [insert_rows, keep_first_by_value]
  | succ n ih =>
    intro pairs u hlen hu hall
    match pairs with
    | [] => simp [insert_rows, keep_first_by_value]
    | (e, v) :: rest =>
      have hv : v ∈ u := hall (e, v) (List.mem_cons_self _ _)
      rw [show insert_rows ((e, v) :: rest) u
          = emit e v :: insert_rows rest (u.erase v) by simp [insert_rows, hv]]
      rw [keep_first_by_value, List.map_cons]
      congr 1
      rw [insert_rows_filter_ne rest (u.erase v) v
        (fun hmem => ((List.Nodup.mem_erase_iff hu).mp hmem).1 rfl)]
      apply ih
      · calc (rest.filter (fun p => decide (p.2 ≠ v))).length
            ≤ rest.length := List.length_filter_le _ _
          _ ≤ n := by simpa using Nat.succ_le_succ_iff.mp (by simpa using hlen)
      · exact hu.erase v
      · intro p hp
        rcases List.mem_filter.mp hp with ⟨hmem, hcond⟩
        refine (List.Nodup.mem_erase_iff hu).mpr ⟨?_, hall p (List.mem_cons_of_mem _ hmem)⟩
        simpa using hcond

/-- C10: within a duplicate group the rows inserted by the pipeline are
    exactly those of the earliest entry carrying each distinct output CCS
    value, in order — the surviving record keeps that earliest entry's
    metadata with the computed value, and every later entry mapping to an
    already-emitted value is dropped. -/
theorem c10_survivor_is_earliest_entry (entries : List Entry)
    (processed : List ℚ) :
    group_inserted_rows entries processed
      = (keep_first_by_value (entries.zip processed)).map
          (fun p => emit p.1 p.2) := by
  unfold group_inserted_rows
  apply insert_rows_eq_keep_first_aux (entries.zip processed).length
  · exact le_rfl
  · exact processed.nodup_dedup
  · intro p hp
    rw [List.mem_dedup]
    obtain ⟨a, b⟩ := p
    exact (List.of_mem_zip hp).2

/-! ### Claim C6 -/

/-- Record named "Caffeine" with mz 195.4 (C6 concrete instance). -/
def caffeineUpper : Entry :=
  ⟨10, "Caffeine", "[M+H]+", 194.08, 1, 195.4, 140, "smiK", none, "srcX", "DT", "m"⟩

/-- Record named "caffeine" with mz 195.6 (C6 concrete instance). -/
def caffeineLower196 : Entry :=
  ⟨11, "caffeine", "[M+H]+", 194.08, 1, 195.6, 141, "smiK", none, "srcY", "TW", "m"⟩

/-- Record named "caffeine" with mz 194.4 (C6 concrete instance). -/
def caffeineLower194 : Entry :=
  ⟨12, "caffeine", "[M+H]+", 194.08, 1, 194.4, 142, "smiK", none, "srcZ", "TW", "m"⟩

theorem group_key_caffeineUpper :
    group_key caffeineUpper = ("caffeine", "[M+H]+", 195) := by
  have hlow : pyLower "Caffeine" = "caffeine" := by decide
  have hq : pyRound (195.4 : ℚ) 0 = 195 := by norm_num [pyRound, round_half_even]
  simp [group_key, caffeineUpper, hlow, hq]

theorem group_key_caffeineLower196 :
    group_key caffeineLower196 = ("caffeine", "[M+H]+", 196) := by
  have hlow : pyLower "caffeine" = "caffeine" := by decide
  have hq : pyRound (195.6 : ℚ) 0 = 196 := by norm_num [pyRound, round_half_even]
  simp [group_key, caffeineLower196, hlow, hq]

theorem group_key_caffeineLower194 :
    group_key caffeineLower194 = ("caffeine", "[M+H]+", 194) := by
  have hlow : pyLower "caffeine" = "caffeine" := by decide
  have hq : pyRound (194.4 : ℚ) 0 = 194 := by norm_num [pyRound, round_half_even]
  simp [group_key, caffeineLower194, hlow, hq]

/-- Counterexample to C6 as stated: mz 195.6 rounds to 196, not 195, so the
    records "Caffeine"/mz 195.4 and "caffeine"/mz 195.6 (same adduct) do NOT
    land in the same duplicate group. -/
theorem c6_counterexample :
    group_key caffeineUpper ≠ group_key caffeineLower196 ∧
    caffeineLower196 ∉
      group_of [caffeineUpper, caffeineLower196, caffeineLower194]
        (group_key caffeineUpper) := by
  have hne : group_key caffeineUpper ≠ group_key caffeineLower196 := by
    rw [group_key_caffeineUpper, group_key_caffeineLower196]
    simp only [ne_eq, Prod.mk.injEq]
    norm_num
  refine ⟨hne, fun hmem => ?_⟩
  have := (List.mem_filter.mp hmem).2
  exact hne (of_decide_eq_true this).symm

/-- C6 (amended): grouping is deterministic and total — every record belongs
    to exactly one group, the one of its key (lower-cased name, adduct, mz
    rounded to the nearest integer).  The names "Caffeine" and "caffeine"
    agree after lower-casing, but mz 195.4 rounds to 195 while 195.6 rounds
    to 196, so those two records land in different duplicate groups, and the
    record with mz 194.4 (rounds to 194) lands in a third group. -/
theorem c6_amended_grouping (data : List Entry) (e : Entry) :
    (e ∈ data →
      e ∈ group_of data (group_key e) ∧
      ∀ k, e ∈ group_of data k → k = group_key e) ∧
    pyLower "Caffeine" = pyLower "caffeine" ∧
    pyRound 195.4 0 = 195 ∧ pyRound 195.6 0 = 196 ∧ pyRound 194.4 0 = 194 ∧
    group_key caffeineUpper ≠ group_key caffeineLower196 ∧
    group_key caffeineUpper ≠ group_key caffeineLower194 ∧
    group_key caffeineLower196 ≠ group_key caffeineLower194 := by
  refine ⟨?_, by decide, by norm_num [pyRound, round_half_even],
    by norm_num [pyRound, round_half_even], by norm_num [pyRound, round_half_even],
    ?_, ?_, ?_⟩
  · intro he
    constructor
    · simp [group_of, List.mem_filter, he]
    · intro k hk
      exact (of_decide_eq_true (List.mem_filter.mp hk).2).symm
  · rw [group_key_caffeineUpper, group_key_caffeineLower196]
    simp only [ne_eq, Prod.mk.injEq]
    norm_num
  · rw [group_key_caffeineUpper, group_key_caffeineLower194]
    simp only [ne_eq, Prod.mk.injEq]
    norm_num
  · rw [group_key_caffeineLower196, group_key_caffeineLower194]
    simp only [ne_eq, Prod.mk.injEq]
    norm_num

/-- Witness for C6 (amended) on a concrete two-record data set. -/
theorem c6_witness :
    caffeineUpper ∈
      group_of [caffeineUpper, caffeineLower196] (group_key caffeineUpper) ∧
    pyRound 195.6 0 = 196 := by
  obtain ⟨h1, _, _, h4, _⟩ :=
    c6_amended_grouping [caffeineUpper, caffeineLower196] caffeineUpper
  exact ⟨(h1 (by simp)).1, h4⟩

/-! ### Claim C8 -/

/-- Rewriting of `create_clean_db` with the delete-then-recreate of the
    destination path collapsed into one state: whether or not a destination
    file pre-existed, after `os.remove`/`sqlite3.connect` the destination
    holds a fresh empty database and every other path is untouched. -/
theorem create_clean_db_eq (fs : FS) (dest inc : String) :
    create_clean_db fs dest inc
      = run_scripts
          ⟨fs.script_files, fun q => if q = dest then some [] else fs.db_files q⟩
          dest (sql_script_paths inc) := by
  obtain ⟨sf, db⟩ := fs
  unfold create_clean_db
  dsimp only
  congr 1
  by_cases hdb : (db dest).isSome
  · rw [if_pos hdb]
    congr 1
    funext q
    by_cases hq : q = dest <;> simp [hq]
  · rw [if_neg hdb]

/-- C8 (amended): when one of the three schema script paths does not exist,
    `create_clean_db` aborts with a file-not-found error before executing any
    later script (and before any data row could be written), but the
    destination store is NOT unchanged: a pre-existing file at the
    destination path has already been deleted, and at the moment of failure
    the destination holds a freshly created database containing exactly the
    schema scripts preceding the missing one. -/
theorem c8_amended_missing_script_fails_after_reset (fs : FS) (dest inc : String) :
    (fs.script_files (inc ++ "/C3SDB_schema.sqlite3") = none →
      (create_clean_db fs dest inc).2 = some "FileNotFoundError" ∧
      (create_clean_db fs dest inc).1.db_files dest = some []) ∧
    (∀ t₁, fs.script_files (inc ++ "/C3SDB_schema.sqlite3") = some t₁ →
      fs.script_files (inc ++ "/mqn_schema.sqlite3") = none →
      (create_clean_db fs dest inc).2 = some "FileNotFoundError" ∧
      (create_clean_db fs dest inc).1.db_files dest = some [t₁]) ∧
    (∀ t₁ t₂, fs.script_files (inc ++ "/C3SDB_schema.sqlite3") = some t₁ →
      fs.script_files (inc ++ "/mqn_schema.sqlite3") = some t₂ →
      fs.script_files (inc ++ "/pred_CCS_schema.sqlite3") = none →
      (create_clean_db fs dest inc).2 = some "FileNotFoundError" ∧
      (create_clean_db fs dest inc).1.db_files dest = some [t₁, t₂]) := by
  rw [create_clean_db_eq]
  refine ⟨fun h₁ => ?_, fun t₁ h₁ h₂ => ?_, fun t₁ t₂ h₁ h₂ h₃ => ?_⟩
  · simp only [sql_script_paths, run_scripts, h₁]
    exact ⟨trivial, by simp⟩
  · simp only [sql_script_paths, run_scripts, h₁, h₂]
    exact ⟨trivial, by simp⟩
  · simp only [sql_script_paths, run_scripts, h₁, h₂, h₃]
    exact ⟨trivial, by simp⟩

/-- A file system with a pre-existing destination database (content `OLD`)
    and no schema scripts at all (C8 counterexample and witness). -/
def fsNoScripts : FS :=
  ⟨fun _ => none, fun q => if q = "C3S_clean.db" then some ["OLD"] else none⟩

/-- Counterexample to C8 as stated: with a pre-existing destination file and
    a missing first schema script, the run fails with the missing-file error,
    yet the destination file is NOT unchanged — it has been deleted and
    recreated empty before the error is raised. -/
theorem c8_counterexample :
    ((create_clean_db fsNoScripts "C3S_clean.db" "include").2).isSome = true ∧
    (create_clean_db fsNoScripts "C3S_clean.db" "include").1.db_files "C3S_clean.db"
      ≠ fsNoScripts.db_files "C3S_clean.db" := by
  constructor
  · rfl
  · intro h
    have h1 : (create_clean_db fsNoScripts "C3S_clean.db" "include").1.db_files
        "C3S_clean.db" = some [] := rfl
    have h2 : fsNoScripts.db_files "C3S_clean.db" = some ["OLD"] := rfl
    rw [h1, h2] at h
    simp at h

/-- Witness for C8 (amended), applying its first conjunct to `fsNoScripts`. -/
theorem c8_witness :
    fsNoScripts.script_files ("include" ++ "/C3SDB_schema.sqlite3") = none ∧
    (create_clean_db fsNoScripts "C3S_clean.db" "include").2
      = some "FileNotFoundError" := by
  exact ⟨rfl,
    ((c8_amended_missing_script_fails_after_reset fsNoScripts "C3S_clean.db"
      "include").1 rfl).1⟩

end C3SDB
